import Mathlib

/-!
Verification development for the LRV batch GPS analyzer
(`lrv_batch_analyzer.py`).

The Python source is shallowly embedded here:
  * Python strings are `List Char`; `str.strip`, `str.split`, the `in`
    substring test and `re.match` are modelled character by character.
  * Python floats are modelled as exact rationals (`ℚ`); every numeric
    value appearing in the program is a short decimal literal, far away
    from any double-rounding boundary.
  * Raised-and-uncaught exceptions are modelled by `Except Unit`;
    functions whose failures the source catches locally return `Option`
    or substitute the default the source substitutes.
  * The CPython `float()` constructor is modelled on signed decimal
    literals with optional exponent (ASCII digits); the exotic inputs it
    additionally accepts (`inf`, `nan`, underscore separators, unicode
    digits) never occur in the inputs considered here.
  * `datetime.strptime` with format `%Y:%m:%d %H:%M:%S` is modelled
    following CPython's `_strptime` regex construction (exactly four
    digits for `%Y`, one or two digits for the other fields, whitespace
    in the format matching one-or-more whitespace, full consumption of
    the input) together with the range checks of the `datetime`
    constructor.
The dictionary `current_point` of `extract_gps_data` is mutated in place
after having been appended to the result list, so the Python list can
hold live aliases of the dictionary under construction.  The segmenter
state therefore keeps, next to the frozen points `done`, the number
`aliasCount` of references to the current dictionary already stored in
the result list; `realPoints` rebuilds the Python list from that
encoding.
-/

abbrev Chars := List Char

deriving instance DecidableEq for Except

/-- The apostrophe character, written via its code point. -/
def apos : Char := ⟨39, by decide⟩

/-- The double-quote character, written via its code point. -/
def quot : Char := ⟨34, by decide⟩

/-- ASCII whitespace as recognised by Python's `str.strip` / `str.split`
and the regex class `\s` (space, tab, linefeed, return, vertical tab,
formfeed). -/
def isPySpace (c : Char) : Bool :=
  c == ' ' || c == '\t' || c == '\n' || c == '\r' ||
  c == Char.ofNat 11 || c == Char.ofNat 12

/-- `str.lstrip()`. -/
def lstrip (l : Chars) : Chars := l.dropWhile isPySpace

/-- `str.rstrip()`. -/
def rstrip (l : Chars) : Chars := (l.reverse.dropWhile isPySpace).reverse

/-- `str.strip()`. -/
def pyStrip (l : Chars) : Chars := rstrip (lstrip l)

/-- `line.split(':', 1)[1]`: the part after the first colon, `none`
mirroring the `IndexError` raised when no colon occurs. -/
def afterColon : Chars → Option Chars
  | [] => none
  | c :: cs => if c == ':' then some cs else afterColon cs

/-- Python's substring test `needle in haystack`. -/
def subIn (needle : Chars) : Chars → Bool
  | [] => needle.isEmpty
  | c :: t => needle.isPrefixOf (c :: t) || subIn needle t

/-- Numeric value of a decimal digit character. -/
def toD (c : Char) : Nat := c.toNat - 48

/-- Value of a string of decimal digits (Python `int` on digit strings). -/
def digitsToNat (ds : Chars) : Nat := ds.foldl (fun a c => a * 10 + toD c) 0

/-!
Exact rational arithmetic.  The `Rat` operations of the ambient library
are flagged irreducible, so the model uses its own operations built on
`mkRat`; the bridge lemmas `qOfNat_eq`, `qAdd_eq`, `qMul_eq`, `qNeg_eq`
and `qDivNat_eq` below prove that they are exactly the field operations
of `ℚ`, so every arithmetic expression of the source keeps its usual
meaning.
-/

def qOfNat (n : Nat) : ℚ := mkRat (Int.ofNat n) 1

def qAdd (a b : ℚ) : ℚ := mkRat (a.num * b.den + b.num * a.den) (a.den * b.den)

def qMul (a b : ℚ) : ℚ := mkRat (a.num * b.num) (a.den * b.den)

def qNeg (a : ℚ) : ℚ := mkRat (-a.num) a.den

/-- Division by a natural number. -/
def qDivNat (a : ℚ) (n : Nat) : ℚ := mkRat a.num (a.den * n)

/-- Exponent digits of a float literal (after an optional sign). -/
def pyExpPos (r : Chars) : Option Nat :=
  if r ≠ [] ∧ r.all Char.isDigit then some (digitsToNat r) else none

/-- Signed exponent of a float literal, as the factor `10^±d`. -/
def pyExpDigits (t : Chars) : Option ℚ :=
  match t with
  | '-' :: r => (pyExpPos r).map (fun d => mkRat 1 ((10 : Nat) ^ d))
  | '+' :: r => (pyExpPos r).map (fun d => mkRat ((10 : Int) ^ d) 1)
  | r => (pyExpPos r).map (fun d => mkRat ((10 : Int) ^ d) 1)

/-- Optional exponent part (`e`/`E`, sign, digits) of a float literal;
an empty remainder means exponent factor `1`, anything else is trailing
junk and fails. -/
def pyExpPart : Chars → Option ℚ
  | [] => some (mkRat 1 1)
  | 'e' :: t => pyExpDigits t
  | 'E' :: t => pyExpDigits t
  | _ => none

/-- Unsigned part of CPython `float()` on a decimal literal:
`digits [. digits] [exp]` or `. digits [exp]`. -/
def pyFloatUnsigned (cs : Chars) : Option ℚ :=
  let ip := cs.takeWhile Char.isDigit
  let r1 := cs.dropWhile Char.isDigit
  match r1 with
  | '.' :: t =>
    let fp := t.takeWhile Char.isDigit
    let r2 := t.dropWhile Char.isDigit
    if ip = [] ∧ fp = [] then none
    else (pyExpPart r2).map
      (fun e => qMul (qAdd (qOfNat (digitsToNat ip))
        (qDivNat (qOfNat (digitsToNat fp)) ((10 : Nat) ^ fp.length))) e)
  | r2 =>
    if ip = [] then none
    else (pyExpPart r2).map (fun e => qMul (qOfNat (digitsToNat ip)) e)

/-- CPython `float()` on decimal literals, with optional sign.  `none`
models a raised `ValueError`. -/
def pyFloat (cs : Chars) : Option ℚ :=
  match cs with
  | '-' :: r => (pyFloatUnsigned r).map qNeg
  | '+' :: r => pyFloatUnsigned r
  | r => pyFloatUnsigned r

/-- The four groups captured by the coordinate regex
`(\d+)\s*deg\s*(\d+)'\s*([\d.]+)"\s*([NSEW])`. -/
structure CoordGroups where
  degDigits : Chars
  minDigits : Chars
  secChars : Chars
  dir : Char
deriving DecidableEq, Repr

/-- Is the character in the regex class `[\d.]`? -/
def isDigitDot (c : Char) : Bool := c.isDigit || c == '.'

/-- `re.match` of `(\d+)\s*deg\s*(\d+)'\s*([\d.]+)"\s*([NSEW])` against
the start of the string (trailing text is ignored, as `re.match` only
anchors at the start).  Greedy matching is equivalent to the maximal
munch used here because each group's class is disjoint from the
character that must follow it. -/
def coordMatch (cs : Chars) : Option CoordGroups :=
  let g1 := cs.takeWhile Char.isDigit
  let r1 := cs.dropWhile Char.isDigit
  if g1 = [] then none else
  match r1.dropWhile isPySpace with
  | 'd' :: 'e' :: 'g' :: r3 =>
    let r4 := r3.dropWhile isPySpace
    let g2 := r4.takeWhile Char.isDigit
    let r5 := r4.dropWhile Char.isDigit
    if g2 = [] then none else
    match r5 with
    | c5 :: r6 =>
      if c5 = apos then
        let r7 := r6.dropWhile isPySpace
        let g3 := r7.takeWhile isDigitDot
        let r8 := r7.dropWhile isDigitDot
        if g3 = [] then none else
        match r8 with
        | c8 :: r9 =>
          if c8 = quot then
            match r9.dropWhile isPySpace with
            | d :: _ =>
              if d == 'N' || d == 'S' || d == 'E' || d == 'W' then
                some ⟨g1, g2, g3, d⟩
              else none
            | [] => none
          else none
        | [] => none
      else none
    | [] => none
  | _ => none

/-- `parse_coordinate` (source lines 21-39): convert a sexagesimal
coordinate string to decimal degrees; a non-matching string yields
`0.0`, but `float(match.group(3))` is **not** guarded, so a seconds
group such as `3.4.5` raises a `ValueError` (modelled by `.error ()`). -/
def parse_coordinate (cs : Chars) : Except Unit ℚ :=
  match coordMatch cs with
  | none => .ok 0
  | some g =>
    match pyFloat g.secChars with
    | none => .error ()
    | some s =>
      let dec : ℚ :=
        qAdd (qAdd (qOfNat (digitsToNat g.degDigits))
          (qDivNat (qOfNat (digitsToNat g.minDigits)) 60)) (qDivNat s 3600)
      .ok (if g.dir = 'S' ∨ g.dir = 'W' then qNeg dec else dec)

/-- A naive `datetime` value (year, month, day, hour, minute, second). -/
structure PyDateTime where
  year : Nat
  month : Nat
  day : Nat
  hour : Nat
  minute : Nat
  second : Nat
deriving DecidableEq, Repr

/-- Gregorian leap-year rule used by `datetime`. -/
def isLeapYear (y : Nat) : Bool := (y % 4 == 0 && y % 100 != 0) || y % 400 == 0

/-- Days in a month, used by the `datetime` constructor's validation. -/
def daysInMonth (y m : Nat) : Nat :=
  if m = 2 then (if isLeapYear y then 29 else 28)
  else if m = 4 ∨ m = 6 ∨ m = 9 ∨ m = 11 then 30 else 31

/-- One or two decimal digits, taken greedily (as the `_strptime`
field regexes do; the greedy choice is equivalent because every field
is followed by a non-digit in the format). -/
def digits2 : Chars → Option (Nat × Chars)
  | [] => none
  | [a] => if a.isDigit then some (toD a, []) else none
  | a :: b :: r =>
    if a.isDigit then
      (if b.isDigit then some (toD a * 10 + toD b, r) else some (toD a, b :: r))
    else none

/-- `datetime.strptime(s, '%Y:%m:%d %H:%M:%S')`, returning `none` on
any `ValueError` (no regex match, unconverted trailing data, or range
check of the `datetime` constructor, including rejection of the leap
seconds 60 and 61 admitted by the `%S` regex). -/
def strptimeYmdHMS (cs : Chars) : Option PyDateTime :=
  match cs with
  | y1 :: y2 :: y3 :: y4 :: r0 =>
    if y1.isDigit && y2.isDigit && y3.isDigit && y4.isDigit then
      let y := ((toD y1 * 10 + toD y2) * 10 + toD y3) * 10 + toD y4
      match r0 with
      | ':' :: r1 =>
        match digits2 r1 with
        | some (mo, r2) =>
          match r2 with
          | ':' :: r3 =>
            match digits2 r3 with
            | some (d, r4) =>
              match r4 with
              | c :: r4a =>
                if isPySpace c then
                  let r5 := r4a.dropWhile isPySpace
                  match digits2 r5 with
                  | some (h, r6) =>
                    match r6 with
                    | ':' :: r7 =>
                      match digits2 r7 with
                      | some (mi, r8) =>
                        match r8 with
                        | ':' :: r9 =>
                          match digits2 r9 with
                          | some (s, r10) =>
                            if r10 = [] ∧ 1 ≤ y ∧ 1 ≤ mo ∧ mo ≤ 12 ∧ 1 ≤ d ∧
                                d ≤ daysInMonth y mo ∧ h ≤ 23 ∧ mi ≤ 59 ∧ s ≤ 59 then
                              some ⟨y, mo, d, h, mi, s⟩
                            else none
                          | none => none
                        | _ => none
                      | none => none
                    | _ => none
                  | none => none
                else none
              | [] => none
            | none => none
          | _ => none
        | none => none
      | _ => none
    else none
  | _ => none

/-- `parse_gps_time` (source lines 41-52): drop every `Z`, strip, cut
the string at the first dot if any (truncating fractional seconds), and
parse with `strptime`; the bare `except` turns every failure into
`None`, so the model is total into `Option`. -/
def parse_gps_time (ts : Chars) : Option PyDateTime :=
  let clean := pyStrip (ts.filter (fun c => c != 'Z'))
  let clean2 := if ('.') ∈ clean then clean.takeWhile (fun c => c != '.') else clean
  strptimeYmdHMS clean2

/-- One GPS point, the dictionary built by `extract_gps_data`. -/
structure GpsPoint where
  datetime : PyDateTime
  latitude : ℚ
  longitude : ℚ
  altitude : ℚ
  speed : ℚ
  track : ℚ
deriving DecidableEq, Repr

/-- A freshly started point: timestamp plus zero-initialised fields. -/
def freshPoint (t : PyDateTime) : GpsPoint := ⟨t, 0, 0, 0, 0, 0⟩

def setLat (p : GpsPoint) (q : ℚ) : GpsPoint :=
  ⟨p.datetime, q, p.longitude, p.altitude, p.speed, p.track⟩

def setLon (p : GpsPoint) (q : ℚ) : GpsPoint :=
  ⟨p.datetime, p.latitude, q, p.altitude, p.speed, p.track⟩

def setAlt (p : GpsPoint) (q : ℚ) : GpsPoint :=
  ⟨p.datetime, p.latitude, p.longitude, q, p.speed, p.track⟩

def setSpeed (p : GpsPoint) (q : ℚ) : GpsPoint :=
  ⟨p.datetime, p.latitude, p.longitude, p.altitude, q, p.track⟩

def setTrack (p : GpsPoint) (q : ℚ) : GpsPoint :=
  ⟨p.datetime, p.latitude, p.longitude, p.altitude, p.speed, q⟩

/-- Segmenter state.  `done` are the points in `gps_data` that are no
longer aliased by `current_point`; `aliasCount` is the number of entries
of `gps_data` that are references to the dictionary currently held in
`cur` (mutating `cur` mutates those entries); `cur = none` models the
falsy empty dictionary. -/
structure SegState where
  done : List GpsPoint
  aliasCount : Nat
  cur : Option GpsPoint
deriving DecidableEq, Repr

/-- The Python list `gps_data` reconstructed from the state encoding. -/
def realPoints (st : SegState) : List GpsPoint :=
  st.done ++ (match st.cur with | some p => List.replicate st.aliasCount p | none => [])

def dtMark : Chars := "GPS Date/Time".data
def latMark : Chars := "GPS Latitude".data
def lonMark : Chars := "GPS Longitude".data
def altMark : Chars := "GPS Altitude".data
def speedMark : Chars := "GPS Speed".data
def trackMark : Chars := "GPS Track".data

inductive LineKind where
  | blank | dt | lat | lon | alt | speed | track | other
deriving DecidableEq

/-- The `if not line.strip(): continue` test followed by the `elif`
chain of substring tests, in source order. -/
def classify (l : Chars) : LineKind :=
  if pyStrip l = [] then .blank
  else if subIn dtMark l then .dt
  else if subIn latMark l then .lat
  else if subIn lonMark l then .lon
  else if subIn altMark l then .alt
  else if subIn speedMark l then .speed
  else if subIn trackMark l then .track
  else .other

/-- The `GPS Date/Time` branch (source lines 79-95).  The previous
point, when present, is appended (one more alias) *before* the colon
split; a missing colon raises (`.error`).  On a successful parse the
aliases of the old dictionary freeze into `done` because
`current_point` is rebound; on a failed parse `current_point` is left
untouched, still aliasing the appended entry. -/
def dtStep (st : SegState) (l : Chars) : Except Unit SegState :=
  match st.cur with
  | some p =>
    match afterColon l with
    | none => .error ()
    | some v =>
      match parse_gps_time (pyStrip v) with
      | some t => .ok ⟨st.done ++ List.replicate (st.aliasCount + 1) p, 0, some (freshPoint t)⟩
      | none => .ok ⟨st.done, st.aliasCount + 1, some p⟩
  | none =>
    match afterColon l with
    | none => .error ()
    | some v =>
      match parse_gps_time (pyStrip v) with
      | some t => .ok ⟨st.done, st.aliasCount, some (freshPoint t)⟩
      | none => .ok st

/-- The `GPS Latitude` / `GPS Longitude` branches (source lines
96-103): guarded by a truthy `current_point`; the unguarded colon split
and the unguarded `parse_coordinate` call propagate exceptions. -/
def coordStep (st : SegState) (l : Chars) (fld : GpsPoint → ℚ → GpsPoint) :
    Except Unit SegState :=
  match st.cur with
  | none => .ok st
  | some p =>
    match afterColon l with
    | none => .error ()
    | some v =>
      match parse_coordinate (pyStrip v) with
      | .error e => .error e
      | .ok q => .ok ⟨st.done, st.aliasCount, some (fld p q)⟩

/-- The altitude value (source lines 104-110): first whitespace token
of the value, parsed by `float`; the local `try` maps every failure
(missing colon, empty value, bad number) to `0.0`. -/
def altVal (l : Chars) : ℚ :=
  match afterColon l with
  | none => 0
  | some v =>
    match
      (let t := ((pyStrip v).dropWhile isPySpace).takeWhile (fun c => !(isPySpace c));
       if t = [] then none else some t) with
    | none => 0
    | some tok => (pyFloat tok).getD 0

/-- The speed/track value (source lines 111-124): the whole stripped
value parsed by `float`, the local `try` defaulting every failure to
`0.0`. -/
def plainNumVal (l : Chars) : ℚ :=
  match afterColon l with
  | none => 0
  | some v => (pyFloat (pyStrip v)).getD 0

/-- The guarded field assignment shared by the altitude, speed and
track branches. -/
def numStep (st : SegState) (q : ℚ) (fld : GpsPoint → ℚ → GpsPoint) :
    Except Unit SegState :=
  match st.cur with
  | none => .ok st
  | some p => .ok ⟨st.done, st.aliasCount, some (fld p q)⟩

/-- One iteration of the line loop of `extract_gps_data`. -/
def stepLine (st : SegState) (l : Chars) : Except Unit SegState :=
  match classify l with
  | .blank => .ok st
  | .dt => dtStep st l
  | .lat => coordStep st l setLat
  | .lon => coordStep st l setLon
  | .alt => numStep st (altVal l) setAlt
  | .speed => numStep st (plainNumVal l) setSpeed
  | .track => numStep st (plainNumVal l) setTrack
  | .other => .ok st

/-- The line loop; an `.error` is an exception escaping to the outer
`except` of `extract_gps_data`. -/
def runLines : SegState → List Chars → Except Unit SegState
  | st, [] => .ok st
  | st, l :: ls =>
    match stepLine st l with
    | .ok st2 => runLines st2 ls
    | .error e => .error e

def initState : SegState := ⟨[], 0, none⟩

/-- The final `if current_point and 'datetime' in current_point:
gps_data.append(current_point)` (source lines 126-128): one more
reference to the current dictionary. -/
def finalizePoints (st : SegState) : List GpsPoint :=
  realPoints st ++ (match st.cur with | some p => [p] | none => [])

/-- The segmenter on a line sequence: the resulting `gps_data`, or the
exception that escaped the loop. -/
def extractLines (ls : List Chars) : Except Unit (List GpsPoint) :=
  match runLines initState ls with
  | .ok st => .ok (finalizePoints st)
  | .error e => .error e

/-- `extract_gps_data` given the tool's stdout lines: the outer
`except Exception` turns an escaped exception into an empty result. -/
def extract_gps_data (ls : List Chars) : List GpsPoint :=
  match extractLines ls with
  | .ok ps => ps
  | .error _ => []

/-- Abstracted run environment for `main` (source lines 186-242):
`argv`, the two validation probes, and the discovered LRV files paired
with the stdout of a successful tool invocation (`none` models a
non-zero exit, a timeout or any other invocation failure, all of which
make `extract_gps_data` return an empty list). -/
structure MainEnv where
  argv : List Chars
  pathExists : Bool
  toolOk : Bool
  lrvFiles : List (Chars × Option (List Chars))
deriving DecidableEq

inductive MainOutcome where
  | usageError
  | pathError
  | toolError
  | noFilesError
  | noData
  | success (allData : List (Chars × List GpsPoint))
deriving DecidableEq

/-- Points extracted from one file. -/
def fileGpsPoints : Option (List Chars) → List GpsPoint
  | none => []
  | some ls => extract_gps_data ls

/-- Control flow of `main`: validations, per-file extraction, files
with no points excluded from the aggregate, and the final
`if all_data: write_csv ... else: print(...)`.  CSV row formatting is
out of scope; `success` carries the aggregate that `write_csv`
serialises. -/
def lrvMain (env : MainEnv) : MainOutcome :=
  if env.argv.length < 2 then .usageError
  else if !env.pathExists then .pathError
  else if !env.toolOk then .toolError
  else if env.lrvFiles = [] then .noFilesError
  else
    let allData := env.lrvFiles.filterMap
      (fun f => let pts := fileGpsPoints f.2; if pts = [] then none else some (f.1, pts))
    if allData = [] then .noData else .success allData

/-- Exit status of the process for each outcome.  The four fatal
validation branches call `sys.exit(1)`; both final branches of `main`
(source lines 236-242) fall through without `sys.exit`, so the process
ends with status 0 — including the `noData` branch, which only prints
a message. -/
def mainExitCode : MainOutcome → Nat
  | .usageError => 1
  | .pathError => 1
  | .toolError => 1
  | .noFilesError => 1
  | .noData => 0
  | .success _ => 0

/-! Sample inputs (coordinate strings are assembled from character
lists around `apos` and `quot`). -/

def dtLineA : Chars := "GPS Date/Time : 2025:06:30 02:13:56Z".data

def dtLineB : Chars := "GPS Date/Time : 2025:07:01 10:00:00Z".data

def dtLineBad : Chars := "GPS Date/Time : bad".data

def latLine10 : Chars := "GPS Latitude : 10 deg 0".data ++ apos :: " 0.0".data ++ quot :: " N".data

def latLine20 : Chars := "GPS Latitude : 20 deg 0".data ++ apos :: " 0.0".data ++ quot :: " N".data

def latLine20S : Chars := "GPS Latitude : 20 deg 0".data ++ apos :: " 0.0".data ++ quot :: " S".data

def lonLine139 : Chars := "GPS Longitude : 139 deg 30".data ++ apos :: " 0.0".data ++ quot :: " E".data

def lonLine10W : Chars := "GPS Longitude : 10 deg 30".data ++ apos :: " 0.0".data ++ quot :: " W".data

def altLine1 : Chars := "GPS Altitude : 15.2 m".data

def altLine2 : Chars := "GPS Altitude : -5.0 m".data

def speedLine1 : Chars := "GPS Speed : 1.234".data

def speedLine2 : Chars := "GPS Speed : 0.5".data

def trackLine1 : Chars := "GPS Track : 90.5".data

def trackLine2 : Chars := "GPS Track : 180.0".data

/-- A coordinate whose seconds group matches `[\d.]+` but is not a
valid float (two dots). -/
def badSecondsCoord : Chars := "1 deg 2".data ++ apos :: " 3.4.5".data ++ quot :: " N".data

def latLineBadSeconds : Chars := "GPS Latitude : ".data ++ badSecondsCoord

/-- The spec's example coordinate string, in the canonical shape
`D deg M' S" H`. -/
def c4Sample : Chars :=
  ['3', '5'] ++ ' ' :: 'd' :: 'e' :: 'g' :: ' ' ::
    (['3', '7'] ++ apos :: ' ' :: (['3', '5', '.', '5', '0'] ++ quot :: ' ' :: ['N']))

/-- The spec's example coordinate followed by trailing text. -/
def c10Sample : Chars := c4Sample ++ " xyz".data

/-! Claim-support predicates. -/

/-- The line is classified as a `GPS Date/Time` marker and its value
(after the first colon, stripped) parses to `t`. -/
def isDtLineVal (l : Chars) (t : PyDateTime) : Prop :=
  classify l = .dt ∧ ∃ v, afterColon l = some v ∧ parse_gps_time (pyStrip v) = some t

def isLatLineVal (l : Chars) (q : ℚ) : Prop :=
  classify l = .lat ∧ ∃ v, afterColon l = some v ∧ parse_coordinate (pyStrip v) = Except.ok q

def isLonLineVal (l : Chars) (q : ℚ) : Prop :=
  classify l = .lon ∧ ∃ v, afterColon l = some v ∧ parse_coordinate (pyStrip v) = Except.ok q

def isAltLineVal (l : Chars) (q : ℚ) : Prop := classify l = .alt ∧ altVal l = q

def isSpeedLineVal (l : Chars) (q : ℚ) : Prop := classify l = .speed ∧ plainNumVal l = q

def isTrackLineVal (l : Chars) (q : ℚ) : Prop := classify l = .track ∧ plainNumVal l = q

def isOkC : Except Unit ℚ → Bool
  | .ok _ => true
  | .error _ => false

/-- Sufficient condition for a line not to raise: a `GPS Date/Time`
line has a colon, and a latitude/longitude line has a colon and a
coordinate value on which `parse_coordinate` does not raise (which
includes every non-matching string, mapped to `0.0`). -/
def lineSafe (l : Chars) : Prop :=
  (classify l = .dt → (afterColon l).isSome = true) ∧
  ((classify l = .lat ∨ classify l = .lon) →
    (afterColon l).isSome = true ∧
      isOkC (parse_coordinate (pyStrip ((afterColon l).getD []))) = true)

instance lineSafeDecidable (l : Chars) : Decidable (lineSafe l) := by
  unfold lineSafe
  infer_instance

/-- A `GPS Date/Time` line whose value parses: the line that starts a
new point. -/
def isGoodDt (l : Chars) : Bool :=
  match classify l with
  | .dt =>
    (match afterColon l with
     | some v => (parse_gps_time (pyStrip v)).isSome
     | none => false)
  | _ => false

/-- Number of entries of the Python list after finalization, as a
function of the state: frozen entries, aliases, plus one for a live
current point. -/
def weight (st : SegState) : Nat :=
  st.done.length + (match st.cur with | some _ => st.aliasCount + 1 | none => 0)

/-- Environment in which every discovered file yields zero points. -/
def envNoData : MainEnv :=
  ⟨["prog".data, "footage".data], true, true, [("a.lrv".data, some [])]⟩

/-! Helper lemmas about the list primitives. -/

theorem runLines_cons_ok {st st2 : SegState} {l : Chars} (ls : List Chars)
    (h : stepLine st l = .ok st2) : runLines st (l :: ls) = runLines st2 ls := by
  simp [runLines, h]

theorem runLines_append (a b : List Chars) (st : SegState) :
    runLines st (a ++ b) =
      match runLines st a with
      | .ok st2 => runLines st2 b
      | .error e => .error e := by
  induction a generalizing st with
  | nil => simp [runLines]
  | cons l t ih =>
    simp only [List.cons_append, runLines]
    cases hs : stepLine st l with
    | ok st2 => exact ih st2
    | error e => rfl

theorem takeWhile_app_cons (p : Char → Bool) (a : Chars) (c : Char) (b : Chars)
    (ha : ∀ x ∈ a, p x = true) (hc : p c = false) :
    (a ++ c :: b).takeWhile p = a := by
  induction a with
  | nil => simp [List.takeWhile, hc]
  | cons x t ih =>
    have hx : p x = true := ha x (by simp)
    simp only [List.cons_append, List.takeWhile, hx, List.append_eq]
    rw [ih (fun y hy => ha y (by simp [hy]))]

theorem dropWhile_app_cons (p : Char → Bool) (a : Chars) (c : Char) (b : Chars)
    (ha : ∀ x ∈ a, p x = true) (hc : p c = false) :
    (a ++ c :: b).dropWhile p = c :: b := by
  induction a with
  | nil => simp [List.dropWhile, hc]
  | cons x t ih =>
    have hx : p x = true := ha x (by simp)
    simp only [List.cons_append, List.dropWhile, hx]
    exact ih (fun y hy => ha y (by simp [hy]))

theorem dropWhile_app (p : Char → Bool) (a b : Chars) :
    (a ++ b).dropWhile p =
      if a.dropWhile p = [] then b.dropWhile p else a.dropWhile p ++ b := by
  induction a with
  | nil => simp
  | cons x t ih =>
    by_cases hx : p x = true
    · simpa [List.dropWhile, hx] using ih
    · simp [List.dropWhile, hx]

theorem filter_id_of (p : Char → Bool) (l : Chars) (h : ∀ c ∈ l, p c = true) :
    l.filter p = l := by
  induction l with
  | nil => rfl
  | cons x t ih =>
    have hx : p x = true := h x (by simp)
    simp [List.filter, hx, ih (fun y hy => h y (by simp [hy]))]

theorem lstrip_app_cons (a : Chars) (c : Char) (b : Chars) (hc : isPySpace c = false) :
    lstrip (a ++ c :: b) = lstrip a ++ c :: b := by
  unfold lstrip
  rw [dropWhile_app]
  by_cases ha : a.dropWhile isPySpace = []
  · simp [ha, List.dropWhile, hc]
  · simp [ha]

theorem rstrip_app_cons (a : Chars) (c : Char) (b : Chars) (hc : isPySpace c = false) :
    rstrip (a ++ c :: b) = a ++ c :: rstrip b := by
  unfold rstrip
  rw [show (a ++ c :: b).reverse = b.reverse ++ c :: a.reverse by simp]
  rw [dropWhile_app]
  by_cases hb : b.reverse.dropWhile isPySpace = []
  · simp [hb, List.dropWhile, hc]
  · simp [hb, List.reverse_append]

theorem pyStrip_app_cons (a : Chars) (c : Char) (b : Chars) (hc : isPySpace c = false) :
    pyStrip (a ++ c :: b) = lstrip a ++ c :: rstrip b := by
  unfold pyStrip
  rw [lstrip_app_cons a c b hc, rstrip_app_cons (lstrip a) c b hc]

theorem mem_lstrip (a : Chars) (c : Char) (h : c ∈ lstrip a) : c ∈ a :=
  (List.dropWhile_sublist isPySpace).subset h

/-! Claim theorems. -/

/-- Claim C2 (code_bug evidence): in a run whose single discovered file
yields zero GPS points, `main` reaches the `noData` branch — a printed
message, no CSV written — and the process exit status is `0`, not the
non-zero status the claim (and the spec) require: the `else` branch at
source lines 241-242 has no `sys.exit(1)`, unlike the four validation
failures before it. -/
theorem c2_no_data_exit_status :
    lrvMain envNoData = MainOutcome.noData ∧ mainExitCode (lrvMain envNoData) = 0 := by
  constructor <;> rfl

/-- Claim C1 (code_bug evidence): after a point has been started, a
`GPS Date/Time` line with an unparsable value does *not* clear the
accumulator.  On the input below the code appends the current point,
leaves `current_point` aliasing the appended entry, lets the following
`GPS Latitude` line overwrite the latitude of the already-appended
point (to 20, not the 10 of its own segment), and appends the same
point again at end of input — instead of dropping the trailing lines as
the claim states. -/
theorem c1_stale_accumulator :
    extract_gps_data [dtLineA, latLine10, dtLineBad, latLine20] =
      [⟨⟨2025, 6, 30, 2, 13, 56⟩, 20, 0, 0, 0, 0⟩,
       ⟨⟨2025, 6, 30, 2, 13, 56⟩, 20, 0, 0, 0, 0⟩] := by
  decide

/-- Claim C3, amended part: every coordinate string that the regex does
not match (missing quote, wrong direction letter, non-`[\d.]`
characters in a numeric component, ...) yields exactly `0.0` with no
error; strings whose seconds group matches `[\d.]+` without being a
valid decimal are the exception recorded by the counterexample. -/
theorem c3_nonmatching_yields_zero (cs : Chars) (h : coordMatch cs = none) :
    parse_coordinate cs = Except.ok 0 := by
  simp [parse_coordinate, h]

/-- Witness for C3: a string with the minute quote missing does not
match and parses to `0.0`. -/
theorem c3_nonmatching_witness :
    coordMatch "35 deg 37 35.50 N".data = none ∧
      parse_coordinate "35 deg 37 35.50 N".data = Except.ok 0 :=
  ⟨by decide, c3_nonmatching_yields_zero _ (by decide)⟩

/-- Counterexample to C3 as stated: `1 deg 2' 3.4.5" N` is not of the
form `D deg M' S" H` (its seconds component is not a decimal number),
yet `parse_coordinate` raises (`float("3.4.5")` raises `ValueError`)
instead of returning `0.0`. -/
theorem c3_counterexample : parse_coordinate badSecondsCoord = Except.error () := by
  rfl

/-- Claim C6: whenever the run of the Segmenter over the whole input
leaves a point under construction, finalization appends that point as
the last element of the output. -/
theorem c6_flush_on_exhaustion (ls : List Chars) (d : List GpsPoint) (r : Nat)
    (p : GpsPoint) (h : runLines initState ls = Except.ok ⟨d, r, some p⟩) :
    extractLines ls = Except.ok ((d ++ List.replicate r p) ++ [p]) := by
  simp [extractLines, h, finalizePoints, realPoints]

/-- Witness for C6 on a two-line input ending mid-segment. -/
theorem c6_flush_witness :
    extractLines [dtLineA, latLine10] =
      Except.ok [⟨⟨2025, 6, 30, 2, 13, 56⟩, 10, 0, 0, 0, 0⟩] := by
  have h : runLines initState [dtLineA, latLine10] =
      Except.ok ⟨[], 0, some ⟨⟨2025, 6, 30, 2, 13, 56⟩, 10, 0, 0, 0, 0⟩⟩ := by decide
  simpa using c6_flush_on_exhaustion _ _ _ _ h

/-! Bridge lemmas: the `mkRat`-based operations are the field
operations of `ℚ`. -/

theorem qOfNat_eq (n : Nat) : qOfNat n = (n : ℚ) := by
  unfold qOfNat
  rw [Rat.mkRat_eq_div]
  push_cast
  exact div_one _

theorem qAdd_eq (a b : ℚ) : qAdd a b = a + b := by
  unfold qAdd
  rw [Rat.mkRat_eq_div]
  have ha : ((a.den : ℚ)) ≠ 0 := by exact_mod_cast a.den_nz
  have hb : ((b.den : ℚ)) ≠ 0 := by exact_mod_cast b.den_nz
  conv_rhs => rw [← Rat.num_div_den a, ← Rat.num_div_den b]
  rw [div_add_div _ _ ha hb]
  push_cast
  ring_nf

theorem qMul_eq (a b : ℚ) : qMul a b = a * b := by
  unfold qMul
  rw [Rat.mkRat_eq_div]
  conv_rhs => rw [← Rat.num_div_den a, ← Rat.num_div_den b]
  rw [div_mul_div_comm]
  push_cast
  ring_nf

theorem qNeg_eq (a : ℚ) : qNeg a = -a := by
  unfold qNeg
  rw [Rat.mkRat_eq_div]
  push_cast
  rw [neg_div, Rat.num_div_den]

theorem qDivNat_eq (a : ℚ) (n : Nat) : qDivNat a n = a / (n : ℚ) := by
  unfold qDivNat
  rw [Rat.mkRat_eq_div]
  push_cast
  rw [← div_div, Rat.num_div_den]

/-! Character class lemmas. -/

theorem digit_not_ws (c : Char) (h : c.isDigit = true) : isPySpace c = false := by
  cases hx : isPySpace c
  · rfl
  · exfalso
    unfold isPySpace at hx
    simp only [Bool.or_eq_true, beq_iff_eq] at hx
    rcases hx with ((((h1 | h1) | h1) | h1) | h1) | h1 <;> subst h1 <;> exact absurd h (by decide)

theorem digitDot_not_ws (c : Char) (h : isDigitDot c = true) : isPySpace c = false := by
  unfold isDigitDot at h
  simp only [Bool.or_eq_true, beq_iff_eq] at h
  rcases h with h | h
  · exact digit_not_ws c h
  · subst h; decide

theorem dropWhile_ws_space (l : Chars) :
    List.dropWhile isPySpace (' ' :: l) = List.dropWhile isPySpace l := by
  simp [List.dropWhile, show isPySpace ' ' = true from by decide]

theorem dropWhile_ws_nonws (c : Char) (l : Chars) (hc : isPySpace c = false) :
    List.dropWhile isPySpace (c :: l) = c :: l := by
  simp [List.dropWhile, hc]

/-- Shared matching lemma for the canonical coordinate shape
`D deg M' S" H` followed by arbitrary trailing text. -/
theorem coordMatch_canonical (dd mm ss : Chars) (h : Char) (t : Chars)
    (hdd1 : dd ≠ []) (hdd2 : ∀ c ∈ dd, c.isDigit = true)
    (hmm1 : mm ≠ []) (hmm2 : ∀ c ∈ mm, c.isDigit = true)
    (hss1 : ss ≠ []) (hss2 : ∀ c ∈ ss, isDigitDot c = true)
    (hh : h = 'N' ∨ h = 'S' ∨ h = 'E' ∨ h = 'W') :
    coordMatch (dd ++ ' ' :: 'd' :: 'e' :: 'g' :: ' ' ::
        (mm ++ apos :: ' ' :: (ss ++ quot :: ' ' :: h :: t))) =
      some ⟨dd, mm, ss, h⟩ := by
  have hm0 : ∃ m0 mr, mm = m0 :: mr := List.exists_cons_of_ne_nil hmm1
  have hs0 : ∃ s0 sr, ss = s0 :: sr := List.exists_cons_of_ne_nil hss1
  have hhs : isPySpace h = false := by
    rcases hh with rfl | rfl | rfl | rfl <;> decide
  have hhn : (h == 'N' || h == 'S' || h == 'E' || h == 'W') = true := by
    rcases hh with rfl | rfl | rfl | rfl <;> decide
  have hmmws : List.dropWhile isPySpace (mm ++ apos :: ' ' :: (ss ++ quot :: ' ' :: h :: t)) =
      mm ++ apos :: ' ' :: (ss ++ quot :: ' ' :: h :: t) := by
    obtain ⟨m0, mr, rfl⟩ := hm0
    exact dropWhile_ws_nonws m0 _ (digit_not_ws m0 (hmm2 m0 (by simp)))
  have hssws : List.dropWhile isPySpace (ss ++ quot :: ' ' :: h :: t) =
      ss ++ quot :: ' ' :: h :: t := by
    obtain ⟨s0, sr, rfl⟩ := hs0
    exact dropWhile_ws_nonws s0 _ (digitDot_not_ws s0 (hss2 s0 (by simp)))
  unfold coordMatch
  rw [takeWhile_app_cons Char.isDigit dd ' ' _ hdd2 (by decide)]
  rw [dropWhile_app_cons Char.isDigit dd ' ' _ hdd2 (by decide)]
  rw [if_neg hdd1]
  rw [dropWhile_ws_space, dropWhile_ws_nonws 'd' _ (by decide)]
  simp only []
  rw [dropWhile_ws_space, hmmws]
  rw [takeWhile_app_cons Char.isDigit mm apos _ hmm2 (by decide)]
  rw [dropWhile_app_cons Char.isDigit mm apos _ hmm2 (by decide)]
  rw [if_neg hmm1]
  simp only [if_true]
  rw [dropWhile_ws_space, hssws]
  rw [takeWhile_app_cons isDigitDot ss quot _ hss2 (by decide)]
  rw [dropWhile_app_cons isDigitDot ss quot _ hss2 (by decide)]
  rw [if_neg hss1]
  simp only [if_true]
  rw [dropWhile_ws_space, dropWhile_ws_nonws h _ hhs]
  simp only []
  rw [if_pos hhn]

/-- Evaluation of `parse_coordinate` on the canonical shape with
arbitrary trailing text; shared by the claims about valid coordinate
strings and about prefix matching. -/
theorem parseCoord_canonical_eval (dd mm ss : Chars) (h : Char) (t : Chars) (q : ℚ)
    (hdd1 : dd ≠ []) (hdd2 : ∀ c ∈ dd, c.isDigit = true)
    (hmm1 : mm ≠ []) (hmm2 : ∀ c ∈ mm, c.isDigit = true)
    (hss1 : ss ≠ []) (hss2 : ∀ c ∈ ss, isDigitDot c = true)
    (hh : h = 'N' ∨ h = 'S' ∨ h = 'E' ∨ h = 'W')
    (hq : pyFloat ss = some q) :
    parse_coordinate (dd ++ ' ' :: 'd' :: 'e' :: 'g' :: ' ' ::
        (mm ++ apos :: ' ' :: (ss ++ quot :: ' ' :: h :: t))) =
      Except.ok (if h = 'S' ∨ h = 'W'
        then -((digitsToNat dd : ℚ) + (digitsToNat mm : ℚ) / 60 + q / 3600)
        else (digitsToNat dd : ℚ) + (digitsToNat mm : ℚ) / 60 + q / 3600) := by
  unfold parse_coordinate
  rw [coordMatch_canonical dd mm ss h t hdd1 hdd2 hmm1 hmm2 hss1 hss2 hh]
  simp only []
  rw [hq]
  simp only [qAdd_eq, qOfNat_eq, qDivNat_eq, qNeg_eq, Nat.cast_ofNat]

/-- Claim C4: every coordinate string of the form `D deg M' S" H` with
digit groups `D`, `M`, a `[\d.]` seconds group `S` whose decimal value
is `q`, and `H` one of N/S/E/W parses to `D + M/60 + S/3600`, negated
exactly when `H` is S or W. -/
theorem c4_valid_coordinate (dd mm ss : Chars) (h : Char) (q : ℚ)
    (hdd1 : dd ≠ []) (hdd2 : ∀ c ∈ dd, c.isDigit = true)
    (hmm1 : mm ≠ []) (hmm2 : ∀ c ∈ mm, c.isDigit = true)
    (hss1 : ss ≠ []) (hss2 : ∀ c ∈ ss, isDigitDot c = true)
    (hh : h = 'N' ∨ h = 'S' ∨ h = 'E' ∨ h = 'W')
    (hq : pyFloat ss = some q) :
    parse_coordinate (dd ++ ' ' :: 'd' :: 'e' :: 'g' :: ' ' ::
        (mm ++ apos :: ' ' :: (ss ++ quot :: ' ' :: h :: []))) =
      Except.ok (if h = 'S' ∨ h = 'W'
        then -((digitsToNat dd : ℚ) + (digitsToNat mm : ℚ) / 60 + q / 3600)
        else (digitsToNat dd : ℚ) + (digitsToNat mm : ℚ) / 60 + q / 3600) :=
  parseCoord_canonical_eval dd mm ss h [] q hdd1 hdd2 hmm1 hmm2 hss1 hss2 hh hq

/-- Witness for C4: the spec's example `35 deg 37' 35.50" N` parses to
`256511/7200 = 35.6265277…`, within `10⁻⁶` of the spec's `35.626528`. -/
theorem c4_example_witness :
    parse_coordinate c4Sample = Except.ok (mkRat 256511 7200) ∧
      |mkRat 256511 7200 - mkRat 35626528 1000000| ≤ mkRat 1 1000000 := by
  constructor
  · have h1 : parse_coordinate c4Sample =
        Except.ok (if ('N' : Char) = 'S' ∨ ('N' : Char) = 'W'
          then -((digitsToNat ['3', '5'] : ℚ) + (digitsToNat ['3', '7'] : ℚ) / 60 +
            mkRat 71 2 / 3600)
          else (digitsToNat ['3', '5'] : ℚ) + (digitsToNat ['3', '7'] : ℚ) / 60 +
            mkRat 71 2 / 3600) :=
      c4_valid_coordinate ['3', '5'] ['3', '7'] ['3', '5', '.', '5', '0'] 'N' (mkRat 71 2)
        (by decide) (by decide) (by decide) (by decide) (by decide) (by decide)
        (Or.inl rfl) (by decide)
    rw [h1, if_neg (by decide)]
    rw [show digitsToNat ['3', '5'] = 35 from rfl, show digitsToNat ['3', '7'] = 37 from rfl]
    rw [Rat.mkRat_eq_div, Rat.mkRat_eq_div]
    norm_num
  · rw [Rat.mkRat_eq_div, Rat.mkRat_eq_div, Rat.mkRat_eq_div, abs_le]
    constructor <;> norm_num

/-- Claim C10: `re.match` anchors only at the start, so a valid
`D deg M' S" H` prefix followed by arbitrary trailing text still parses
to the decimal value of the prefix (never the `0.0` fallback). -/
theorem c10_prefix_match (dd mm ss : Chars) (h : Char) (t : Chars) (q : ℚ)
    (hdd1 : dd ≠ []) (hdd2 : ∀ c ∈ dd, c.isDigit = true)
    (hmm1 : mm ≠ []) (hmm2 : ∀ c ∈ mm, c.isDigit = true)
    (hss1 : ss ≠ []) (hss2 : ∀ c ∈ ss, isDigitDot c = true)
    (hh : h = 'N' ∨ h = 'S' ∨ h = 'E' ∨ h = 'W')
    (hq : pyFloat ss = some q) :
    parse_coordinate (dd ++ ' ' :: 'd' :: 'e' :: 'g' :: ' ' ::
        (mm ++ apos :: ' ' :: (ss ++ quot :: ' ' :: h :: t))) =
      Except.ok (if h = 'S' ∨ h = 'W'
        then -((digitsToNat dd : ℚ) + (digitsToNat mm : ℚ) / 60 + q / 3600)
        else (digitsToNat dd : ℚ) + (digitsToNat mm : ℚ) / 60 + q / 3600) :=
  parseCoord_canonical_eval dd mm ss h t q hdd1 hdd2 hmm1 hmm2 hss1 hss2 hh hq

/-- Witness for C10: the example coordinate with trailing `" xyz"`
still parses to the value of its valid prefix. -/
theorem c10_prefix_witness :
    parse_coordinate c10Sample = Except.ok (mkRat 256511 7200) := by
  have h1 : parse_coordinate (['3', '5'] ++ ' ' :: 'd' :: 'e' :: 'g' :: ' ' ::
      (['3', '7'] ++ apos :: ' ' :: (['3', '5', '.', '5', '0'] ++
        quot :: ' ' :: 'N' :: " xyz".data))) =
      Except.ok (if ('N' : Char) = 'S' ∨ ('N' : Char) = 'W'
        then -((digitsToNat ['3', '5'] : ℚ) + (digitsToNat ['3', '7'] : ℚ) / 60 +
          mkRat 71 2 / 3600)
        else (digitsToNat ['3', '5'] : ℚ) + (digitsToNat ['3', '7'] : ℚ) / 60 +
          mkRat 71 2 / 3600) :=
    c10_prefix_match ['3', '5'] ['3', '7'] ['3', '5', '.', '5', '0'] 'N' " xyz".data
      (mkRat 71 2) (by decide) (by decide) (by decide) (by decide) (by decide) (by decide)
      (Or.inl rfl) (by decide)
  have h2 : c10Sample = ['3', '5'] ++ ' ' :: 'd' :: 'e' :: 'g' :: ' ' ::
      (['3', '7'] ++ apos :: ' ' :: (['3', '5', '.', '5', '0'] ++
        quot :: ' ' :: 'N' :: " xyz".data)) := by decide
  rw [h2, h1, if_neg (by decide)]
  rw [show digitsToNat ['3', '5'] = 35 from rfl, show digitsToNat ['3', '7'] = 37 from rfl]
  rw [Rat.mkRat_eq_div, Rat.mkRat_eq_div]
  norm_num

/-- Claim C7: a fractional-seconds suffix is truncated, not rounded:
for any dot-free, `Z`-free timestamp body `pre` with no trailing
whitespace, appending `.f Z` parses to exactly the same instant as
appending `Z` alone — whatever the fraction digits are.  Failures are
returned as `none` (the model's `Option`), never raised, mirroring the
bare `except` of `parse_gps_time`. -/
theorem c7_truncation (pre frac : Chars)
    (hdot : ('.') ∉ pre) (hz1 : ('Z') ∉ pre) (hz2 : ('Z') ∉ frac)
    (hts : pyStrip pre = lstrip pre) :
    parse_gps_time (pre ++ '.' :: (frac ++ ['Z'])) = parse_gps_time (pre ++ ['Z']) := by
  have hfpre : pre.filter (fun c => c != 'Z') = pre :=
    filter_id_of _ pre (fun c hc => by
      simp only [bne_iff_ne, ne_eq, decide_eq_true_eq]
      exact ne_of_mem_of_not_mem hc hz1)
  have hffrac : frac.filter (fun c => c != 'Z') = frac :=
    filter_id_of _ frac (fun c hc => by
      simp only [bne_iff_ne, ne_eq, decide_eq_true_eq]
      exact ne_of_mem_of_not_mem hc hz2)
  unfold parse_gps_time
  rw [List.filter_append, List.filter_append, hfpre]
  rw [show ('.' :: (frac ++ ['Z'])).filter (fun c => c != 'Z') = '.' :: frac by
    simp [List.filter, hffrac]]
  rw [show (['Z'] : Chars).filter (fun c => c != 'Z') = [] by decide]
  rw [List.append_nil]
  rw [pyStrip_app_cons pre '.' frac (by decide)]
  simp only []
  rw [if_pos (by simp : ('.') ∈ lstrip pre ++ '.' :: rstrip frac)]
  rw [takeWhile_app_cons _ (lstrip pre) '.' (rstrip frac)
    (fun c hc => by
      simp only [bne_iff_ne, ne_eq, decide_eq_true_eq]
      exact ne_of_mem_of_not_mem (mem_lstrip pre c hc) hdot)
    (by decide)]
  rw [hts]
  rw [if_neg (fun hmem => hdot (mem_lstrip pre '.' hmem))]

/-- Witness for C7: the spec's example pair of timestamps parse to the
same instant, namely 2025-06-30 02:13:56. -/
theorem c7_truncation_witness :
    parse_gps_time "2025:06:30 02:13:56.9Z".data =
        parse_gps_time "2025:06:30 02:13:56Z".data ∧
      parse_gps_time "2025:06:30 02:13:56Z".data = some ⟨2025, 6, 30, 2, 13, 56⟩ := by
  constructor
  · have h := c7_truncation "2025:06:30 02:13:56".data ['9']
      (by decide) (by decide) (by decide) (by decide)
    have e1 : "2025:06:30 02:13:56.9Z".data =
        "2025:06:30 02:13:56".data ++ '.' :: (['9'] ++ ['Z']) := by decide
    have e2 : "2025:06:30 02:13:56Z".data = "2025:06:30 02:13:56".data ++ ['Z'] := by decide
    rw [e1, e2]
    exact h
  · decide

/-! Single-step lemmas for classified lines. -/

theorem step_dt_fresh (l : Chars) (t : PyDateTime) (d : List GpsPoint) (r : Nat)
    (h : isDtLineVal l t) :
    stepLine ⟨d, r, none⟩ l = .ok ⟨d, r, some (freshPoint t)⟩ := by
  obtain ⟨hc, v, hv, hp⟩ := h
  simp [stepLine, hc, dtStep, hv, hp]

theorem step_dt_next (l : Chars) (t : PyDateTime) (d : List GpsPoint) (r : Nat) (p : GpsPoint)
    (h : isDtLineVal l t) :
    stepLine ⟨d, r, some p⟩ l = .ok ⟨d ++ List.replicate (r + 1) p, 0, some (freshPoint t)⟩ := by
  obtain ⟨hc, v, hv, hp⟩ := h
  simp [stepLine, hc, dtStep, hv, hp]

theorem step_dt_bad (l : Chars) (d : List GpsPoint) (r : Nat) (p : GpsPoint)
    (hc : classify l = .dt) (v : Chars) (hv : afterColon l = some v)
    (hp : parse_gps_time (pyStrip v) = none) :
    stepLine ⟨d, r, some p⟩ l = .ok ⟨d, r + 1, some p⟩ := by
  simp [stepLine, hc, dtStep, hv, hp]

theorem step_lat (l : Chars) (q : ℚ) (d : List GpsPoint) (r : Nat) (p : GpsPoint)
    (h : isLatLineVal l q) :
    stepLine ⟨d, r, some p⟩ l = .ok ⟨d, r, some (setLat p q)⟩ := by
  obtain ⟨hc, v, hv, hq⟩ := h
  simp [stepLine, hc, coordStep, hv, hq]

theorem step_lon (l : Chars) (q : ℚ) (d : List GpsPoint) (r : Nat) (p : GpsPoint)
    (h : isLonLineVal l q) :
    stepLine ⟨d, r, some p⟩ l = .ok ⟨d, r, some (setLon p q)⟩ := by
  obtain ⟨hc, v, hv, hq⟩ := h
  simp [stepLine, hc, coordStep, hv, hq]

theorem step_alt (l : Chars) (q : ℚ) (d : List GpsPoint) (r : Nat) (p : GpsPoint)
    (h : isAltLineVal l q) :
    stepLine ⟨d, r, some p⟩ l = .ok ⟨d, r, some (setAlt p q)⟩ := by
  obtain ⟨hc, hq⟩ := h
  simp [stepLine, hc, numStep, hq]

theorem step_speed (l : Chars) (q : ℚ) (d : List GpsPoint) (r : Nat) (p : GpsPoint)
    (h : isSpeedLineVal l q) :
    stepLine ⟨d, r, some p⟩ l = .ok ⟨d, r, some (setSpeed p q)⟩ := by
  obtain ⟨hc, hq⟩ := h
  simp [stepLine, hc, numStep, hq]

theorem step_track (l : Chars) (q : ℚ) (d : List GpsPoint) (r : Nat) (p : GpsPoint)
    (h : isTrackLineVal l q) :
    stepLine ⟨d, r, some p⟩ l = .ok ⟨d, r, some (setTrack p q)⟩ := by
  obtain ⟨hc, hq⟩ := h
  simp [stepLine, hc, numStep, hq]

/-- Claim C5: a line sequence of two `GPS Date/Time` markers with
parseable times, each followed by one Latitude, Longitude, Altitude,
Speed and Track line, yields exactly two points, each carrying its own
segment's field values, in the order of the marker lines. -/
theorem c5_two_segments
    (l1 l2 l3 l4 l5 l6 l7 l8 l9 l10 l11 l12 : Chars) (T1 T2 : PyDateTime)
    (qa1 qo1 av1 sv1 tv1 qa2 qo2 av2 sv2 tv2 : ℚ)
    (h1 : isDtLineVal l1 T1) (h2 : isLatLineVal l2 qa1) (h3 : isLonLineVal l3 qo1)
    (h4 : isAltLineVal l4 av1) (h5 : isSpeedLineVal l5 sv1) (h6 : isTrackLineVal l6 tv1)
    (h7 : isDtLineVal l7 T2) (h8 : isLatLineVal l8 qa2) (h9 : isLonLineVal l9 qo2)
    (h10 : isAltLineVal l10 av2) (h11 : isSpeedLineVal l11 sv2) (h12 : isTrackLineVal l12 tv2) :
    extractLines [l1, l2, l3, l4, l5, l6, l7, l8, l9, l10, l11, l12] =
      Except.ok [⟨T1, qa1, qo1, av1, sv1, tv1⟩, ⟨T2, qa2, qo2, av2, sv2, tv2⟩] := by
  unfold extractLines
  simp only [initState]
  rw [runLines_cons_ok _ (step_dt_fresh _ _ _ _ h1)]
  rw [runLines_cons_ok _ (step_lat _ _ _ _ _ h2)]
  rw [runLines_cons_ok _ (step_lon _ _ _ _ _ h3)]
  rw [runLines_cons_ok _ (step_alt _ _ _ _ _ h4)]
  rw [runLines_cons_ok _ (step_speed _ _ _ _ _ h5)]
  rw [runLines_cons_ok _ (step_track _ _ _ _ _ h6)]
  rw [runLines_cons_ok _ (step_dt_next _ _ _ _ _ h7)]
  rw [runLines_cons_ok _ (step_lat _ _ _ _ _ h8)]
  rw [runLines_cons_ok _ (step_lon _ _ _ _ _ h9)]
  rw [runLines_cons_ok _ (step_alt _ _ _ _ _ h10)]
  rw [runLines_cons_ok _ (step_speed _ _ _ _ _ h11)]
  rw [runLines_cons_ok _ (step_track _ _ _ _ _ h12)]
  simp [runLines, finalizePoints, realPoints,
    freshPoint, setLat, setLon, setAlt, setSpeed, setTrack]

/-- Witness for C5: two fully populated segments produce exactly the
two expected points in input order. -/
theorem c5_two_segments_witness :
    extractLines [dtLineA, latLine10, lonLine139, altLine1, speedLine1, trackLine1,
        dtLineB, latLine20S, lonLine10W, altLine2, speedLine2, trackLine2] =
      Except.ok
        [⟨⟨2025, 6, 30, 2, 13, 56⟩, 10, mkRat 279 2, mkRat 76 5, mkRat 617 500, mkRat 181 2⟩,
         ⟨⟨2025, 7, 1, 10, 0, 0⟩, mkRat (-20) 1, mkRat (-21) 2, mkRat (-5) 1, mkRat 1 2, 180⟩] :=
  c5_two_segments _ _ _ _ _ _ _ _ _ _ _ _ _ _ _ _ _ _ _ _ _ _ _ _
    ⟨by decide, " 2025:06:30 02:13:56Z".data, by decide, by decide⟩
    ⟨by decide, " 10 deg 0".data ++ apos :: " 0.0".data ++ quot :: " N".data,
      by decide, by decide⟩
    ⟨by decide, " 139 deg 30".data ++ apos :: " 0.0".data ++ quot :: " E".data,
      by decide, by decide⟩
    ⟨by decide, by decide⟩ ⟨by decide, by decide⟩ ⟨by decide, by decide⟩
    ⟨by decide, " 2025:07:01 10:00:00Z".data, by decide, by decide⟩
    ⟨by decide, " 20 deg 0".data ++ apos :: " 0.0".data ++ quot :: " S".data,
      by decide, by decide⟩
    ⟨by decide, " 10 deg 30".data ++ apos :: " 0.0".data ++ quot :: " W".data,
      by decide, by decide⟩
    ⟨by decide, by decide⟩ ⟨by decide, by decide⟩ ⟨by decide, by decide⟩

/-! Frame lemmas: the entries already in the list plus the alias count
never shrink, the accumulator never goes back to absent, and lines that
only mutate the current point act the same from any frozen prefix. -/

theorem step_m_mono (l : Chars) (st st2 : SegState) (h : stepLine st l = .ok st2) :
    st.done.length + st.aliasCount ≤ st2.done.length + st2.aliasCount := by
  obtain ⟨d, r, c⟩ := st
  cases hk : classify l <;>
    simp only [stepLine, hk, dtStep, coordStep, numStep] at h <;>
    cases c <;>
    (try simp only [] at h) <;>
    (try split at h) <;> (try split at h) <;>
    first
      | (simp only [Except.ok.injEq] at h
         subst h
         simp only [List.length_append, List.length_replicate]
         omega)
      | exact absurd h (by simp)

theorem step_cur_some (l : Chars) (d : List GpsPoint) (r : Nat) (p : GpsPoint)
    (st2 : SegState) (h : stepLine ⟨d, r, some p⟩ l = .ok st2) : ∃ q, st2.cur = some q := by
  cases hk : classify l <;>
    simp only [stepLine, hk, dtStep, coordStep, numStep] at h <;>
    (try split at h) <;> (try split at h) <;>
    first
      | (simp only [Except.ok.injEq] at h
         subst h
         exact ⟨_, rfl⟩)
      | exact absurd h (by simp)

theorem runLines_m_mono (ls : List Chars) (st st2 : SegState)
    (h : runLines st ls = .ok st2) :
    st.done.length + st.aliasCount ≤ st2.done.length + st2.aliasCount := by
  induction ls generalizing st with
  | nil =>
    simp only [runLines, Except.ok.injEq] at h
    subst h
    exact Nat.le_refl _
  | cons l t ih =>
    simp only [runLines] at h
    cases hs : stepLine st l with
    | error e => simp [hs] at h
    | ok s1 =>
      simp only [hs] at h
      exact Nat.le_trans (step_m_mono l st s1 hs) (ih s1 h)

theorem step_frame (l : Chars) (p q : GpsPoint)
    (h : stepLine ⟨[], 0, some p⟩ l = .ok ⟨[], 0, some q⟩) (d : List GpsPoint) (r : Nat) :
    stepLine ⟨d, r, some p⟩ l = .ok ⟨d, r, some q⟩ := by
  cases hk : classify l
  case blank =>
    simp only [stepLine, hk] at h ⊢
    simp only [Except.ok.injEq, SegState.mk.injEq, Option.some.injEq, true_and] at h
    rw [h]
  case dt =>
    simp only [stepLine, hk, dtStep] at h ⊢
    cases hv : afterColon l with
    | none => simp [hv] at h
    | some v =>
      cases hp : parse_gps_time (pyStrip v) with
      | some t => simp [hv, hp] at h
      | none => simp [hv, hp] at h
  case lat =>
    simp only [stepLine, hk, coordStep] at h ⊢
    cases hv : afterColon l with
    | none => simp [hv] at h
    | some v =>
      cases hq : parse_coordinate (pyStrip v) with
      | error e => simp [hv, hq] at h
      | ok qq =>
        simp only [hv, hq] at h ⊢
        simp only [Except.ok.injEq, SegState.mk.injEq, Option.some.injEq, true_and] at h
        rw [h]
  case lon =>
    simp only [stepLine, hk, coordStep] at h ⊢
    cases hv : afterColon l with
    | none => simp [hv] at h
    | some v =>
      cases hq : parse_coordinate (pyStrip v) with
      | error e => simp [hv, hq] at h
      | ok qq =>
        simp only [hv, hq] at h ⊢
        simp only [Except.ok.injEq, SegState.mk.injEq, Option.some.injEq, true_and] at h
        rw [h]
  case alt =>
    simp only [stepLine, hk, numStep] at h ⊢
    simp only [Except.ok.injEq, SegState.mk.injEq, Option.some.injEq, true_and] at h
    rw [h]
  case speed =>
    simp only [stepLine, hk, numStep] at h ⊢
    simp only [Except.ok.injEq, SegState.mk.injEq, Option.some.injEq, true_and] at h
    rw [h]
  case track =>
    simp only [stepLine, hk, numStep] at h ⊢
    simp only [Except.ok.injEq, SegState.mk.injEq, Option.some.injEq, true_and] at h
    rw [h]
  case other =>
    simp only [stepLine, hk] at h ⊢
    simp only [Except.ok.injEq, SegState.mk.injEq, Option.some.injEq, true_and] at h
    rw [h]

theorem runLines_frame (fs : List Chars) (p p2 : GpsPoint)
    (h : runLines ⟨[], 0, some p⟩ fs = .ok ⟨[], 0, some p2⟩) (d : List GpsPoint) (r : Nat) :
    runLines ⟨d, r, some p⟩ fs = .ok ⟨d, r, some p2⟩ := by
  induction fs generalizing p with
  | nil =>
    simp only [runLines, Except.ok.injEq, SegState.mk.injEq, Option.some.injEq, true_and] at h
    simp only [runLines, h]
  | cons f ft ih =>
    simp only [runLines] at h ⊢
    cases hs : stepLine ⟨[], 0, some p⟩ f with
    | error e => simp [hs] at h
    | ok s1 =>
      simp only [hs] at h
      have hm : s1.done.length + s1.aliasCount = 0 := by
        have h1 : s1.done.length + s1.aliasCount ≤ 0 :=
          runLines_m_mono ft s1 ⟨[], 0, some p2⟩ h
        omega
      obtain ⟨q1, hq1⟩ := step_cur_some f [] 0 p s1 hs
      obtain ⟨sd, sa, sc⟩ := s1
      simp only [] at hq1 hm
      subst hq1
      have hsd : sd = [] := by
        cases sd with
        | nil => rfl
        | cons a b => simp at hm
      subst hsd
      have hsa : sa = 0 := by simpa using hm
      subst hsa
      rw [step_frame f p q1 hs d r]
      exact ih q1 h

/-- Claim C9: after a run that leaves a live point `p` (with `r`
aliases of it already in the list), a `GPS Date/Time` line whose value
does not parse appends `p` once more and leaves the accumulator still
referencing it; any following sequence of lines that only overwrites
the current point's fields (turning `p` into `p2`) therefore mutates
the already-appended entries, and the end-of-input flush appends the
same dictionary once more — so the overwritten point appears at least
twice at the end of the output. -/
theorem c9_stale_alias (ls1 : List Chars) (bad : Chars) (fs : List Chars)
    (d : List GpsPoint) (r : Nat) (p p2 : GpsPoint)
    (h1 : runLines initState ls1 = Except.ok ⟨d, r, some p⟩)
    (hc : classify bad = .dt)
    (v : Chars) (hv : afterColon bad = some v) (hp : parse_gps_time (pyStrip v) = none)
    (h5 : runLines ⟨[], 0, some p⟩ fs = Except.ok ⟨[], 0, some p2⟩) :
    extractLines (ls1 ++ bad :: fs) =
      Except.ok (d ++ List.replicate (r + 1) p2 ++ [p2]) := by
  unfold extractLines
  rw [runLines_append, h1]
  simp only []
  rw [runLines_cons_ok _ (step_dt_bad bad d r p hc v hv hp)]
  rw [runLines_frame fs p p2 h5 d (r + 1)]
  simp [finalizePoints, realPoints]

/-- Witness for C9: a started point with latitude 10 is followed by a
bad `GPS Date/Time` line and a latitude-20 line; the single output
point carries latitude 20 and appears twice. -/
theorem c9_stale_alias_witness :
    extractLines [dtLineA, latLine10, dtLineBad, latLine20] =
      Except.ok [⟨⟨2025, 6, 30, 2, 13, 56⟩, 20, 0, 0, 0, 0⟩,
        ⟨⟨2025, 6, 30, 2, 13, 56⟩, 20, 0, 0, 0, 0⟩] := by
  have h := c9_stale_alias [dtLineA, latLine10] dtLineBad [latLine20] [] 0
    ⟨⟨2025, 6, 30, 2, 13, 56⟩, 10, 0, 0, 0, 0⟩
    ⟨⟨2025, 6, 30, 2, 13, 56⟩, 20, 0, 0, 0, 0⟩
    (by decide) (by decide) " bad".data (by decide) (by decide) (by decide)
  simpa using h

/-! Safety lemmas for claim C8. -/

theorem step_safe (l : Chars) (st : SegState) (hs : lineSafe l) :
    ∃ st2, stepLine st l = .ok st2 ∧
      weight st + (if isGoodDt l = true then 1 else 0) ≤ weight st2 := by
  obtain ⟨d, r, c⟩ := st
  cases hk : classify l
  case blank =>
    refine ⟨⟨d, r, c⟩, by simp [stepLine, hk], ?_⟩
    simp [isGoodDt, hk]
  case dt =>
    have h1 := hs.1 hk
    cases hv : afterColon l with
    | none => rw [hv] at h1; simp at h1
    | some v =>
      have hg : isGoodDt l = (parse_gps_time (pyStrip v)).isSome := by
        simp [isGoodDt, hk, hv]
      cases c with
      | some p =>
        cases hp : parse_gps_time (pyStrip v) with
        | some t =>
          refine ⟨⟨d ++ List.replicate (r + 1) p, 0, some (freshPoint t)⟩,
            by simp [stepLine, hk, dtStep, hv, hp], ?_⟩
          rw [hg, hp]
          simp [weight, List.length_append, List.length_replicate]
        | none =>
          refine ⟨⟨d, r + 1, some p⟩,
            by simp [stepLine, hk, dtStep, hv, hp], ?_⟩
          rw [hg, hp]
          simp [weight]
      | none =>
        cases hp : parse_gps_time (pyStrip v) with
        | some t =>
          refine ⟨⟨d, r, some (freshPoint t)⟩,
            by simp [stepLine, hk, dtStep, hv, hp], ?_⟩
          rw [hg, hp]
          simp [weight]
        | none =>
          refine ⟨⟨d, r, none⟩,
            by simp [stepLine, hk, dtStep, hv, hp], ?_⟩
          rw [hg, hp]
          simp [weight]
  case lat =>
    have h2 := hs.2 (Or.inl hk)
    cases hv : afterColon l with
    | none => rw [hv] at h2; simp at h2
    | some v =>
      rw [hv] at h2
      simp only [Option.isSome_some, Option.getD_some, true_and] at h2
      cases hq : parse_coordinate (pyStrip v) with
      | error e => rw [hq] at h2; simp [isOkC] at h2
      | ok q =>
        cases c with
        | none =>
          refine ⟨⟨d, r, none⟩, by simp [stepLine, hk, coordStep], ?_⟩
          simp [isGoodDt, hk]
        | some p =>
          refine ⟨⟨d, r, some (setLat p q)⟩,
            by simp [stepLine, hk, coordStep, hv, hq], ?_⟩
          simp [isGoodDt, hk, weight]
  case lon =>
    have h2 := hs.2 (Or.inr hk)
    cases hv : afterColon l with
    | none => rw [hv] at h2; simp at h2
    | some v =>
      rw [hv] at h2
      simp only [Option.isSome_some, Option.getD_some, true_and] at h2
      cases hq : parse_coordinate (pyStrip v) with
      | error e => rw [hq] at h2; simp [isOkC] at h2
      | ok q =>
        cases c with
        | none =>
          refine ⟨⟨d, r, none⟩, by simp [stepLine, hk, coordStep], ?_⟩
          simp [isGoodDt, hk]
        | some p =>
          refine ⟨⟨d, r, some (setLon p q)⟩,
            by simp [stepLine, hk, coordStep, hv, hq], ?_⟩
          simp [isGoodDt, hk, weight]
  case alt =>
    cases c with
    | none =>
      refine ⟨⟨d, r, none⟩, by simp [stepLine, hk, numStep], ?_⟩
      simp [isGoodDt, hk]
    | some p =>
      refine ⟨⟨d, r, some (setAlt p (altVal l))⟩, by simp [stepLine, hk, numStep], ?_⟩
      simp [isGoodDt, hk, weight]
  case speed =>
    cases c with
    | none =>
      refine ⟨⟨d, r, none⟩, by simp [stepLine, hk, numStep], ?_⟩
      simp [isGoodDt, hk]
    | some p =>
      refine ⟨⟨d, r, some (setSpeed p (plainNumVal l))⟩, by simp [stepLine, hk, numStep], ?_⟩
      simp [isGoodDt, hk, weight]
  case track =>
    cases c with
    | none =>
      refine ⟨⟨d, r, none⟩, by simp [stepLine, hk, numStep], ?_⟩
      simp [isGoodDt, hk]
    | some p =>
      refine ⟨⟨d, r, some (setTrack p (plainNumVal l))⟩, by simp [stepLine, hk, numStep], ?_⟩
      simp [isGoodDt, hk, weight]
  case other =>
    refine ⟨⟨d, r, c⟩, by simp [stepLine, hk], ?_⟩
    simp [isGoodDt, hk]

theorem run_safe (ls : List Chars) (st : SegState) (hs : ∀ l ∈ ls, lineSafe l) :
    ∃ st2, runLines st ls = .ok st2 ∧ weight st + ls.countP isGoodDt ≤ weight st2 := by
  induction ls generalizing st with
  | nil => exact ⟨st, rfl, by simp⟩
  | cons l t ih =>
    obtain ⟨s1, h1, w1⟩ := step_safe l st (hs l (by simp))
    obtain ⟨s2, h2, w2⟩ := ih s1 (fun x hx => hs x (by simp [hx]))
    refine ⟨s2, ?_, ?_⟩
    · rw [runLines_cons_ok t h1]
      exact h2
    · have hc : (l :: t).countP isGoodDt =
          t.countP isGoodDt + (if isGoodDt l = true then 1 else 0) := by
        simp [List.countP_cons]
      rw [hc]
      omega

/-- Claim C8, amended part: for every line sequence in which each
`GPS Date/Time` line contains a colon and each latitude/longitude line
contains a colon and a value on which `parse_coordinate` does not raise
(which covers every malformed value in the `0.0`-fallback sense, and
every malformed altitude/speed/track/timestamp value unconditionally),
the Segmenter raises nothing, aborts nothing, and returns at least one
point per successfully parsed `GPS Date/Time` marker — so well-formed
segments survive malformed fields elsewhere in the file. -/
theorem c8_no_abort_points_survive (ls : List Chars) (hs : ∀ l ∈ ls, lineSafe l) :
    ∃ ps, extractLines ls = Except.ok ps ∧ ls.countP isGoodDt ≤ ps.length := by
  obtain ⟨st2, h, hw⟩ := run_safe ls initState hs
  refine ⟨finalizePoints st2, by simp [extractLines, h], ?_⟩
  have hlen : (finalizePoints st2).length = weight st2 := by
    obtain ⟨d, r, c⟩ := st2
    cases c <;> simp [finalizePoints, realPoints, weight]
  have hw0 : weight initState = 0 := rfl
  omega

/-- Witness for C8: a file with a malformed altitude, a malformed
speed and a malformed (but colon-carrying) timestamp still yields at
least its two well-formed segments' points. -/
theorem c8_no_abort_witness :
    ∃ ps, extractLines [dtLineA, "GPS Altitude : garbage".data, "GPS Speed : oops".data,
        dtLineBad, dtLineB, latLine10] = Except.ok ps ∧ 2 ≤ ps.length := by
  obtain ⟨ps, h1, h2⟩ := c8_no_abort_points_survive
    [dtLineA, "GPS Altitude : garbage".data, "GPS Speed : oops".data,
      dtLineBad, dtLineB, latLine10] (by decide)
  refine ⟨ps, h1, ?_⟩
  have hc : ([dtLineA, "GPS Altitude : garbage".data, "GPS Speed : oops".data,
      dtLineBad, dtLineB, latLine10].countP isGoodDt) = 2 := by decide
  omega

/-- Counterexample to C8 as stated: a latitude line whose coordinate
text is malformed in the `[\d.]+`-seconds way (`3.4.5`) raises inside
the line loop; the outer handler of `extract_gps_data` catches it,
logs an error and returns the empty list — the file is aborted and the
preceding well-formed segment's point is lost, instead of the malformed
field being silently defaulted. -/
theorem c8_counterexample :
    runLines initState [dtLineA, latLineBadSeconds] = Except.error () ∧
      extract_gps_data [dtLineA, latLineBadSeconds] = [] := by
  constructor <;> decide
